import Mathlib

/-!
Verification of the Auto-Fixer Agent sketched in the repository documentation
(`src/unnamed/part_002`).  The JavaScript implementation embedded there is
translated into executable Lean definitions: the regex-based detectors
(`ReactFixer.findMissingKeys`, `SupabaseFixer.findMissingErrorHandling`), the
fix generators, the `AutoFixer` class (`initializeFixers`, `analyzeFile`,
`analyzeProject`, `applyFixes`, `applyFix`, `presentSuggestedFixes`,
`generateReport`) and the agent configuration.  JavaScript strings are embedded
as `List Char`, numbers holding confidence values as `Rat` (all confidence
literals in the source are exact decimals such as 0.95 and 0.9, written below
as explicit rationals so that comparisons are kernel-decidable), and the
regular expressions as explicit backtracking matchers with ECMAScript
semantics: greedy quantifiers, the most recent choice point retried first,
leftmost match, and the `lastIndex` loop of `exec` on a `/g` pattern.
-/

namespace AutoFixerAgent

/-- ECMAScript `\s` restricted to the ASCII whitespace characters; the
repository's inputs and fixtures contain no Unicode whitespace. -/
def jsSpace (c : Char) : Bool :=
  c == ' ' || c == '\t' || c == '\n' || c == '\r' || c == '\x0b' || c == '\x0c'

/-- Match a literal character sequence at the head of `s`; on success return
the remaining input. -/
def lit : List Char → List Char → Option (List Char)
  | [], s => some s
  | _ :: _, [] => none
  | c :: cs, d :: ds => if c == d then lit cs ds else none

/-- First alternative (in the given preference order) on which `f` succeeds. -/
def firstSome {α β : Type} (f : α → Option β) : List α → Option β
  | [] => none
  | a :: as =>
    match f a with
    | some b => some b
    | none => firstSome f as

/-- Length of the longest prefix of `s` whose characters satisfy `p` (the
maximal extent of a greedy character-class quantifier). -/
def spanLen (p : Char → Bool) (s : List Char) : Nat :=
  (s.takeWhile p).length

/-- Backtracking alternatives of a greedy `X*` over character class `p`:
the number of consumed characters, longest first. -/
def starAlts (p : Char → Bool) (s : List Char) : List Nat :=
  (List.range (spanLen p s + 1)).reverse

/-- Backtracking alternatives of a greedy `X+`: longest first, at least one
character. -/
def plusAlts (p : Char → Bool) (s : List Char) : List Nat :=
  (starAlts p s).filter (fun k => k ≠ 0)

/-- Does `[^>]*key=` match a prefix of `s`?  This is the body of the negative
lookahead `(?![^>]*key=)` in the missing-key pattern. -/
def lookKeyEq : List Char → Bool
  | [] => false
  | c :: cs =>
    if (lit (("key=").toList) (c :: cs)).isSome then true
    else if c == '>' then false
    else lookKeyEq cs

/-- One attempted match of the ECMAScript regular expression
`/\.map\s*\(\s*([^)]+)\s*=>\s*<([^>]+)(?![^>]*key=)/` anchored at the head of
`s` (the `mapPattern` of `ReactFixer.findMissingKeys`), with ECMAScript
backtracking order: each greedy quantifier tries its longest extent first and
the most recently created choice point is retried first.  On success, returns
the length of the whole match together with the characters of capture
group 2. -/
def matchMapAt (s : List Char) : Option (Nat × List Char) :=
  match lit ((".map").toList) s with
  | none => none
  | some s1 =>
    firstSome (fun k1 =>
      let s2 := s1.drop k1
      match lit ['('] s2 with
      | none => none
      | some s3 =>
        firstSome (fun k2 =>
          let s4 := s3.drop k2
          firstSome (fun g1 =>
            let s5 := s4.drop g1
            firstSome (fun k3 =>
              let s6 := s5.drop k3
              match lit (("=>").toList) s6 with
              | none => none
              | some s7 =>
                firstSome (fun k4 =>
                  let s8 := s7.drop k4
                  match lit ['<'] s8 with
                  | none => none
                  | some s9 =>
                    firstSome (fun g2 =>
                      let s10 := s9.drop g2
                      if lookKeyEq s10 then none
                      else some (s.length - s10.length, s9.take g2))
                      (plusAlts (fun c => !(c == '>')) s9))
                  (starAlts jsSpace s7))
              (starAlts jsSpace s5))
            (plusAlts (fun c => !(c == ')')) s4))
          (starAlts jsSpace s3))
      (starAlts jsSpace s1)

/-- A token of a regular expression built only from literals and greedy
character-class quantifiers. -/
inductive RTok : Type where
  | lit : List Char → RTok
  | star : (Char → Bool) → RTok
  | plus : (Char → Bool) → RTok

/-- Backtracking sequence matcher for `RTok` patterns, ECMAScript preference
order (greedy, last choice point retried first); returns the remaining input
of the first successful global assignment. -/
def matchToks : List RTok → List Char → Option (List Char)
  | [], s => some s
  | RTok.lit cs :: ts, s => (lit cs s).bind (matchToks ts)
  | RTok.star p :: ts, s => firstSome (fun k => matchToks ts (s.drop k)) (starAlts p s)
  | RTok.plus p :: ts, s => firstSome (fun k => matchToks ts (s.drop k)) (plusAlts p s)

/-- The tokens of the ECMAScript regular expression
`/const\s+{\s*data\s*}\s*=\s*await\s+supabase/` (the `supabasePattern` of
`SupabaseFixer.findMissingErrorHandling`). -/
def supabaseToks : List RTok :=
  [RTok.lit (("const").toList), RTok.plus jsSpace,
   RTok.lit ['\x7b'], RTok.star jsSpace,
   RTok.lit (("data").toList), RTok.star jsSpace,
   RTok.lit ['\x7d'], RTok.star jsSpace,
   RTok.lit ['='], RTok.star jsSpace,
   RTok.lit (("await").toList), RTok.plus jsSpace,
   RTok.lit (("supabase").toList)]

/-- One attempted match of the `supabasePattern` anchored at the head of `s`;
on success, the length of the whole match. -/
def matchSupabaseAt (s : List Char) : Option Nat :=
  (matchToks supabaseToks s).map (fun rest => s.length - rest.length)

/-- The `exec`/`lastIndex` loop of a `/g` regular expression for the
missing-key pattern: repeatedly find the leftmost match at or after the
current position, then continue immediately after it.  Returns
`(match index, match length, capture group 2)` for every match, in order.
The fuel argument bounds the number of scanned positions and is instantiated
with the length of the input. -/
def mapExecAll : Nat → List Char → Nat → List (Nat × Nat × List Char)
  | 0, _, _ => []
  | _ + 1, [], _ => []
  | fuel + 1, c :: cs, pos =>
    match matchMapAt (c :: cs) with
    | some (len, g2) => (pos, len, g2) :: mapExecAll fuel ((c :: cs).drop len) (pos + len)
    | none => mapExecAll fuel cs (pos + 1)

/-- The `exec`/`lastIndex` loop for the Supabase pattern: `(index, length)` of
every match, in order. -/
def supaExecAll : Nat → List Char → Nat → List (Nat × Nat)
  | 0, _, _ => []
  | _ + 1, [], _ => []
  | fuel + 1, c :: cs, pos =>
    match matchSupabaseAt (c :: cs) with
    | some len => (pos, len) :: supaExecAll fuel ((c :: cs).drop len) (pos + len)
    | none => supaExecAll fuel cs (pos + 1)

/-- JavaScript `String.prototype.replace` with a plain-string pattern:
replace the first occurrence of `pat` (all uses in the source have a nonempty
`pat`), leave the string unchanged when `pat` does not occur. -/
def replaceFirst (pat repl : List Char) : List Char → List Char
  | [] => []
  | c :: cs =>
    if (lit pat (c :: cs)).isSome then repl ++ (c :: cs).drop pat.length
    else c :: replaceFirst pat repl cs

/-- Does `pat` occur as a contiguous substring of the input? -/
def occursSub (pat : List Char) : List Char → Bool
  | [] => pat.isEmpty
  | c :: cs => (lit pat (c :: cs)).isSome || occursSub pat cs

/-- Modelled from the spec: `getLineNumber` is called by both fixers but not
defined in src; a Finding carries a 1-based line number, computed as one plus
the number of newlines before the match index. -/
def getLineNumber (content : List Char) (index : Nat) : Nat :=
  ((content.take index).filter (fun c => c == '\n')).length + 1

/-- A proposed fix: original text span and replacement text
(`generateKeyFix` / `generateErrorHandlingFix` return objects of this
shape). -/
structure FixPatch : Type where
  original : String
  fixed : String
deriving DecidableEq

/-- The confidence value 0.95 (= 19/20) of the missing-key detector, as an
exact rational. -/
def conf095 : Rat := Rat.mk' 19 20 (by decide) (by decide)

/-- The confidence value 0.9 (= 9/10): the missing-error-handling detector's
confidence and the hard-coded cutoff in `AutoFixer.applyFixes`. -/
def conf090 : Rat := Rat.mk' 9 10 (by decide) (by decide)

/-- The configured default threshold 0.8 (= 4/5) from the agent configuration
(`confidence_threshold` in the Core Settings JSON). -/
def conf080 : Rat := Rat.mk' 4 5 (by decide) (by decide)

/-- A Finding as produced by the detectors: category, type, description, file
path, line, confidence and the proposed fix. -/
structure Finding : Type where
  category : String
  type : String
  description : String
  filePath : String
  line : Nat
  confidence : Rat
  fix : FixPatch
deriving DecidableEq

/-- `ReactFixer.generateKeyFix`: `original` is the whole match text
`match[0]`; `fixed` replaces the first occurrence of `'<' + match[2]` by
`` `<${match[2]} key={index}` ``. -/
def generateKeyFix (m0 g2 : List Char) : FixPatch :=
  { original := String.mk m0
    fixed := String.mk (replaceFirst ('<' :: g2) (('<' :: g2) ++ ((" key=\x7bindex\x7d").toList)) m0) }

/-- `ReactFixer.findMissingKeys`: run the missing-key pattern globally over
the content and produce one Finding per match (category `react`, type
`missing_key`, confidence 0.95). -/
def findMissingKeys (content filePath : String) : List Finding :=
  let cs := content.data
  (mapExecAll (cs.length + 1) cs 0).map (fun m =>
    { category := ("react")
      type := ("missing_key")
      description := ("Missing key prop in list item")
      filePath := filePath
      line := getLineNumber cs m.1
      confidence := conf095
      fix := generateKeyFix ((cs.drop m.1).take m.2.1) m.2.2 })

/-- `SupabaseFixer.generateErrorHandlingFix`: `original` is the whole match
`match[0]`; `fixed` replaces `'const { data }'` by `'const { data, error }'`
in it and appends `'\n  if (error) throw error'`. -/
def generateErrorHandlingFix (m0 : List Char) : FixPatch :=
  { original := String.mk m0
    fixed := String.mk
      (replaceFirst (("const \x7b data \x7d").toList)
        (("const \x7b data, error \x7d").toList) m0
       ++ (("\n  if (error) throw error").toList)) }

/-- `SupabaseFixer.findMissingErrorHandling`: run the Supabase pattern
globally over the content and produce one Finding per match (category
`supabase`, type `missing_error_handling`, confidence 0.9). -/
def findMissingErrorHandling (content filePath : String) : List Finding :=
  let cs := content.data
  (supaExecAll (cs.length + 1) cs 0).map (fun m =>
    { category := ("supabase")
      type := ("missing_error_handling")
      description := ("Missing error handling for Supabase call")
      filePath := filePath
      line := getLineNumber cs m.1
      confidence := conf090
      fix := generateErrorHandlingFix ((cs.drop m.1).take m.2) })

/-- Modelled from the spec: applying a Finding's proposed fix performs the
textual rewrite "original text span → replacement text" on the file content,
and fails when the original span no longer occurs in the current content
(`fixer.fix` itself is not in src; only its call site in
`AutoFixer.applyFix` is). -/
def applyTextualFix (content : String) (fix : FixPatch) : Option String :=
  if occursSub fix.original.data content.data
  then some (String.mk (replaceFirst fix.original.data fix.fixed.data content.data))
  else none

/-- Scenario A input: `items.map(item => <div>{item.name}</div>)`. -/
def scenarioA : String := ("items.map(item => <div>\x7bitem.name\x7d</div>)")

/-- Scenario B input:
`const { data } = await supabase.from('users').select('*')`. -/
def scenarioB : String :=
  ("const \x7b data \x7d = await supabase.from(\x27users\x27).select(\x27*\x27)")

/-! ### The AutoFixer class -/

/-- The agent configuration fields used by the `AutoFixer` class; the Core
Settings JSON configures `confidence_threshold = 0.8`, `auto_apply = true`,
`backup_before_fix = true`. -/
structure AgentConfig : Type where
  confidence_threshold : Rat
  auto_apply : Bool
  backup_before_fix : Bool
deriving DecidableEq

/-- The configuration from the Core Settings JSON (also the one passed in the
Programmatic Usage example). -/
def defaultConfig : AgentConfig :=
  { confidence_threshold := conf080, auto_apply := true, backup_before_fix := true }

/-- The five fixer modules registered by `initializeFixers`. -/
inductive Fixer : Type where
  | eslint
  | react
  | supabase
  | security
  | performance
deriving DecidableEq

/-- `initializeFixers`: the `(category, fixer)` pairs registered into
`this.fixers`, in insertion order. -/
def registeredFixers : List (String × Fixer) :=
  [(("eslint"), Fixer.eslint),
   (("react"), Fixer.react),
   (("supabase"), Fixer.supabase),
   (("security"), Fixer.security),
   (("performance"), Fixer.performance)]

/-- `this.fixers.get(category)`: Map lookup over the registered fixers. -/
def fixersGet (category : String) : Option Fixer :=
  (registeredFixers.find? (fun e => e.1 == category)).map (fun e => e.2)

/-- Modelled from the spec: the file-system capability
`read(path) → text, write(path, text) → ok/fail`, as an association list from
path to content; writing updates an existing entry. -/
abbrev FileSystem : Type := List (String × String)

def fsRead (fs : FileSystem) (path : String) : Option String :=
  (fs.find? (fun e => e.1 == path)).map (fun e => e.2)

def fsWrite (fs : FileSystem) (path content : String) : FileSystem :=
  fs.map (fun e => if e.1 == path then (path, content) else e)

/-- A record of `this.appliedFixes`: the originating Finding and the fix
result (`result.success`); the source pushes such a record only when the fix
succeeded.  The wall-clock `timestamp` field is outside the model. -/
structure AppliedFix : Type where
  issue : Finding
  success : Bool
deriving DecidableEq

/-- The mutable state of an `AutoFixer` instance together with the file
system it operates on.  `trace` is a ghost field recording, in order, every
Finding on which `applyFix` was invoked; the source has no such field, it only
serves to state which findings the Fix Applier attempted. -/
structure AutoFixerState : Type where
  config : AgentConfig
  fs : FileSystem
  issues : List Finding
  appliedFixes : List AppliedFix
  backups : List String
  trace : List Finding
deriving DecidableEq

/-- The body of `fixer.fix(issue)` together with its failure modes inside
`AutoFixer.applyFix`: the fixer lookup (`this.fixers.get`), the file read and
the textual replacement.  `fixer.fix` is not in src (only its call site);
modelled from the spec: apply the replacement "original → replacement" to the
file named in the Finding, failing when the original text no longer matches
the current file content (FixApplicationError).  A missing fixer or an
unreadable file raises in the source and is caught by `applyFix`'s
`try`/`catch`; all three failure modes are collapsed into `none`. -/
def attemptFix (fs : FileSystem) (issue : Finding) : Option FileSystem :=
  match fixersGet issue.category with
  | none => none
  | some _ =>
    match fsRead fs issue.filePath with
    | none => none
    | some content =>
      if occursSub issue.fix.original.data content.data then
        some (fsWrite fs issue.filePath
          (String.mk (replaceFirst issue.fix.original.data issue.fix.fixed.data content.data)))
      else none

/-- `AutoFixer.applyFix(issue)`: create a backup if configured
(`createBackup` is not in src; modelled from the spec as snapshotting the
target path), look up the fixer and apply the fix; on success push an
`AppliedFix` record, on any failure only log and continue — no record is
pushed and nothing else changes. -/
def applyFix (st : AutoFixerState) (issue : Finding) : AutoFixerState :=
  let backed := if st.config.backup_before_fix
    then st.backups ++ [issue.filePath] else st.backups
  match attemptFix st.fs issue with
  | some fs2 =>
    { st with
      trace := st.trace ++ [issue]
      backups := backed
      fs := fs2
      appliedFixes := st.appliedFixes ++ [{ issue := issue, success := true }] }
  | none =>
    { st with trace := st.trace ++ [issue], backups := backed }

/-- `AutoFixer.presentSuggestedFixes(issues)`: prompt for each suggested
Finding in order and apply exactly those the user confirms; the prompt is the
oracle `confirm`. -/
def presentSuggestedFixes (confirm : Finding → Bool) (st : AutoFixerState)
    (issues : List Finding) : AutoFixerState :=
  issues.foldl (fun s i => if confirm i then applyFix s i else s) st

/-- `AutoFixer.applyFixes()`: partition `this.issues` by the hard-coded
cutoff 0.9 (`issue.confidence >= 0.9` / `< 0.9`), apply all safe issues
automatically, then present the suggested ones for approval (the source
guards the call by `suggestedIssues.length > 0`). -/
def applyFixes (confirm : Finding → Bool) (st : AutoFixerState) : AutoFixerState :=
  let safeIssues := st.issues.filter (fun i => decide (conf090 ≤ i.confidence))
  let suggestedIssues := st.issues.filter (fun i => decide (i.confidence < conf090))
  let st1 := safeIssues.foldl applyFix st
  if suggestedIssues.length > 0 then presentSuggestedFixes confirm st1 suggestedIssues
  else st1

/-! ### Analysis: detectors, file dispatch, project walk -/

/-- `ReactFixer.canHandle(fileType)`. -/
def reactCanHandle (fileType : String) : Bool :=
  [("jsx"), ("tsx")].contains fileType

/-- `SupabaseFixer.canHandle(fileType)`. -/
def supabaseCanHandle (fileType : String) : Bool :=
  [("js"), ("jsx"), ("ts"), ("tsx")].contains fileType

/-- Modelled from the spec: the pieces of the analysis pipeline whose bodies
are not in src — `ReactFixer.findHookIssues`, `ReactFixer.findStateMutations`,
`SupabaseFixer.findMissingAuthChecks`, `SupabaseFixer.findQueryOptimizations`,
and the whole `ESLintFixer`, `SecurityFixer` and `PerformanceFixer` modules
(only their registration and call sites appear).  Per the spec each detector
is a pure `analyze(content, filePath) → Finding[]` guarded by a
`canHandle(fileType)`; they are taken as parameters. -/
structure MissingDetectors : Type where
  findHookIssues : String → String → List Finding
  findStateMutations : String → String → List Finding
  findMissingAuthChecks : String → String → List Finding
  findQueryOptimizations : String → String → List Finding
  eslintCanHandle : String → Bool
  eslintAnalyze : String → String → List Finding
  securityCanHandle : String → Bool
  securityAnalyze : String → String → List Finding
  performanceCanHandle : String → Bool
  performanceAnalyze : String → String → List Finding

/-- `ReactFixer.analyze(content, filePath)`: missing keys, then hook issues,
then state mutations. -/
def reactAnalyze (md : MissingDetectors) (content filePath : String) : List Finding :=
  findMissingKeys content filePath
    ++ md.findHookIssues content filePath
    ++ md.findStateMutations content filePath

/-- `SupabaseFixer.analyze(content, filePath)`: missing error handling, then
auth checks, then query optimizations. -/
def supabaseAnalyze (md : MissingDetectors) (content filePath : String) : List Finding :=
  findMissingErrorHandling content filePath
    ++ md.findMissingAuthChecks content filePath
    ++ md.findQueryOptimizations content filePath

/-- `canHandle` of each registered fixer module. -/
def fixerCanHandle (md : MissingDetectors) : Fixer → String → Bool
  | Fixer.eslint => md.eslintCanHandle
  | Fixer.react => reactCanHandle
  | Fixer.supabase => supabaseCanHandle
  | Fixer.security => md.securityCanHandle
  | Fixer.performance => md.performanceCanHandle

/-- `analyze` of each registered fixer module. -/
def fixerAnalyze (md : MissingDetectors) : Fixer → String → String → List Finding
  | Fixer.eslint => md.eslintAnalyze
  | Fixer.react => reactAnalyze md
  | Fixer.supabase => supabaseAnalyze md
  | Fixer.security => md.securityAnalyze
  | Fixer.performance => md.performanceAnalyze

/-- Modelled from the spec: `detectFileType` is not in src; `canHandle`
compares the file type against extension strings (`jsx`, `ts`, ...), so the
type is the segment of the path after the last dot (`split('.').pop()`). -/
def detectFileType (path : String) : String :=
  String.mk ((path.data.reverse.takeWhile (fun c => !(c == '.'))).reverse)

/-- `AutoFixer.analyzeFile(filePath)`: read the file, compute its type, and
for every registered fixer that can handle the type append its findings to
`this.issues`.  An unreadable file is skipped (spec: FileReadError — recorded,
file skipped, run continues). -/
def analyzeFile (md : MissingDetectors) (st : AutoFixerState) (filePath : String) :
    AutoFixerState :=
  match fsRead st.fs filePath with
  | none => st
  | some content =>
    registeredFixers.foldl (fun s e =>
      if fixerCanHandle md e.2 (detectFileType filePath) then
        { s with issues := s.issues ++ fixerAnalyze md e.2 content filePath }
      else s) st

/-- `AutoFixer.analyzeProject(projectPath)`: analyze every project file in
order; `getProjectFiles` is not in src, so the enumerated files are a
parameter. -/
def analyzeProject (md : MissingDetectors) (files : List String) (st : AutoFixerState) :
    AutoFixerState :=
  files.foldl (analyzeFile md) st

/-- The issues a single file contributes (what `analyzeFile` appends). -/
def fileIssues (md : MissingDetectors) (fs : FileSystem) (filePath : String) :
    List Finding :=
  match fsRead fs filePath with
  | none => []
  | some content =>
    ((registeredFixers.filter (fun e => fixerCanHandle md e.2 (detectFileType filePath))).map
      (fun e => fixerAnalyze md e.2 content filePath)).flatten

/-- The issues a project walk contributes (what `analyzeProject` appends). -/
def projectIssues (md : MissingDetectors) (fs : FileSystem) (files : List String) :
    List Finding :=
  (files.map (fileIssues md fs)).flatten

/-! ### Reporting and dry runs -/

/-- `generateReport()`'s result (the wall-clock `timestamp` field is outside
the model): total findings, applied-fix count, per-category counts in
first-seen order, and the distinct modified files in first-seen order. -/
structure Report : Type where
  total_issues : Nat
  applied_fixes : Nat
  categories : List (String × Nat)
  files_modified : List String
deriving DecidableEq

/-- Increment the per-category counter, inserting the category on first
sight (the `report.categories[category]++` loop). -/
def bumpCategory (m : List (String × Nat)) (c : String) : List (String × Nat) :=
  if (m.find? (fun e => e.1 == c)).isSome then
    m.map (fun e => if e.1 == c then (e.1, e.2 + 1) else e)
  else m ++ [(c, 1)]

/-- `[...new Set(l)]`: distinct elements in first-occurrence order. -/
def dedupFirstAux (seen : List String) : List String → List String
  | [] => []
  | x :: xs =>
    if seen.contains x then dedupFirstAux seen xs
    else x :: dedupFirstAux (x :: seen) xs

/-- `AutoFixer.generateReport()`. -/
def generateReport (st : AutoFixerState) : Report :=
  { total_issues := st.issues.length
    applied_fixes := st.appliedFixes.length
    categories := st.appliedFixes.foldl (fun m f => bumpCategory m f.issue.category) []
    files_modified := dedupFirstAux [] (st.appliedFixes.map (fun f => f.issue.filePath)) }

/-- A normal run of the Fix Applier followed by the Reporter: the resulting
Report and the resulting file system. -/
def normalRun (confirm : Finding → Bool) (st : AutoFixerState) : Report × FileSystem :=
  let st2 := applyFixes confirm st
  (generateReport st2, st2.fs)

/-- Modelled from the spec: `--dry-run` appears only in the CLI usage sketch
("compute Findings and a would-be Report without mutating files"); the
pipeline is evaluated on the in-memory state and the resulting file-system
state is discarded, so the on-disk files are returned unchanged. -/
def dryRun (confirm : Finding → Bool) (st : AutoFixerState) : Report × FileSystem :=
  ((normalRun confirm st).1, st.fs)

/-! ### Concrete fixtures used to instantiate the theorems -/

/-- The confidence value 0.85 (= 17/20), strictly between the configured
threshold 0.8 and the hard-coded cutoff 0.9. -/
def conf085 : Rat := Rat.mk' 17 20 (by decide) (by decide)

/-- The Finding the missing-key detector produces on Scenario A's input. -/
def findingA : Finding :=
  { category := ("react")
    type := ("missing_key")
    description := ("Missing key prop in list item")
    filePath := ("src/App.jsx")
    line := 1
    confidence := conf095
    fix := { original := (".map(item => <div")
             fixed := (".map(item => <div key=\x7bindex\x7d") } }

/-- The Finding the missing-error-handling detector produces on Scenario B's
input. -/
def findingB : Finding :=
  { category := ("supabase")
    type := ("missing_error_handling")
    description := ("Missing error handling for Supabase call")
    filePath := ("api.js")
    line := 1
    confidence := conf090
    fix := { original := ("const \x7b data \x7d = await supabase")
             fixed := ("const \x7b data, error \x7d = await supabase\n  if (error) throw error") } }

/-- Scenario B's expected rewritten content. -/
def scenarioBFixed : String :=
  ("const \x7b data, error \x7d = await supabase\n  if (error) throw error.from(\x27users\x27).select(\x27*\x27)")

/-- Scenario A's input after its fix has been applied: the element now
carries an index-based key. -/
def keyedInputIdx : String :=
  ("items.map(item => <div key=\x7bindex\x7d>\x7bitem.name\x7d</div>)")

/-- A list-rendering call whose element already carries a per-item key
attribute. -/
def keyedInputId : String :=
  ("items.map(item => <div key=\x7bitem.id\x7d>\x7bitem.name\x7d</div>)")

/-- Missing detectors that see nothing: every body not present in src is the
constantly-empty analysis. -/
def mdNone : MissingDetectors :=
  { findHookIssues := fun _ _ => []
    findStateMutations := fun _ _ => []
    findMissingAuthChecks := fun _ _ => []
    findQueryOptimizations := fun _ _ => []
    eslintCanHandle := fun _ => false
    eslintAnalyze := fun _ _ => []
    securityCanHandle := fun _ => false
    securityAnalyze := fun _ _ => []
    performanceCanHandle := fun _ => false
    performanceAnalyze := fun _ _ => [] }

/-- A fresh `AutoFixer` state over the given file system and issue list,
configured with the documented threshold 0.8 and no backups. -/
def mkState (fs : FileSystem) (issues : List Finding) : AutoFixerState :=
  { config := { confidence_threshold := conf080, auto_apply := true, backup_before_fix := false }
    fs := fs
    issues := issues
    appliedFixes := []
    backups := []
    trace := [] }

/-- A finding with confidence 0.85: at or above the configured threshold
(0.8) but below the hard-coded cutoff (0.9). -/
def finding085 : Finding :=
  { category := ("react")
    type := ("missing_key")
    description := ("Missing key prop in list item")
    filePath := ("a.jsx")
    line := 1
    confidence := conf085
    fix := { original := ("x"), fixed := ("y") } }

def state085 : AutoFixerState := mkState [(("a.jsx"), ("x"))] [finding085]

/-- A finding whose confidence is exactly the cutoff 0.9. -/
def finding090 : Finding :=
  { category := ("react")
    type := ("missing_key")
    description := ("Missing key prop in list item")
    filePath := ("a.jsx")
    line := 1
    confidence := conf090
    fix := { original := ("<div"), fixed := ("<div key=\x7bindex\x7d") } }

def state090 : AutoFixerState := mkState [(("a.jsx"), ("<div>hi</div>"))] [finding090]

/-- A safe finding whose original text span does not occur in its file: its
fix application fails. -/
def findingBad : Finding :=
  { category := ("react")
    type := ("missing_key")
    description := ("Missing key prop in list item")
    filePath := ("a.jsx")
    line := 1
    confidence := conf095
    fix := { original := ("zzz"), fixed := ("yyy") } }

/-- A safe finding whose fix applies cleanly to the same file. -/
def findingGood : Finding :=
  { category := ("react")
    type := ("missing_key")
    description := ("Missing key prop in list item")
    filePath := ("a.jsx")
    line := 1
    confidence := conf095
    fix := { original := ("<div"), fixed := ("<div key=\x7bindex\x7d") } }

def stateC6 : AutoFixerState :=
  mkState [(("a.jsx"), ("<div>hi</div>"))] [findingBad, findingGood]

/-! ### Helper lemmas -/

/-- The decimal literal 0.95 is the rational 19/20. -/
theorem ofScientific_conf095 : (0.95 : Rat) = conf095 := by
  rw [conf095, Rat.mk'_eq_divInt] ; norm_num [Rat.divInt_eq_div]

/-- The decimal literal 0.9 is the rational 9/10. -/
theorem ofScientific_conf090 : (0.9 : Rat) = conf090 := by
  rw [conf090, Rat.mk'_eq_divInt] ; norm_num [Rat.divInt_eq_div]

/-- The decimal literal 0.8 is the rational 4/5. -/
theorem ofScientific_conf080 : (0.8 : Rat) = conf080 := by
  rw [conf080, Rat.mk'_eq_divInt] ; norm_num [Rat.divInt_eq_div]

/-- The decimal literal 0.85 is the rational 17/20. -/
theorem ofScientific_conf085 : (0.85 : Rat) = conf085 := by
  rw [conf085, Rat.mk'_eq_divInt] ; norm_num [Rat.divInt_eq_div]

/-- `applyFix` always records exactly one attempt in the trace, whether or
not the fix succeeds. -/
theorem applyFix_trace (st : AutoFixerState) (i : Finding) :
    (applyFix st i).trace = st.trace ++ [i] := by
  unfold applyFix
  cases attemptFix st.fs i <;> rfl

/-- When the fix fails, `applyFix` changes nothing except recording the
attempt (and the configured backup): no `AppliedFix` is pushed and the file
system is untouched. -/
theorem applyFix_of_attempt_none (st : AutoFixerState) (i : Finding)
    (h : attemptFix st.fs i = none) :
    applyFix st i = { st with
      trace := st.trace ++ [i]
      backups := if st.config.backup_before_fix
        then st.backups ++ [i.filePath] else st.backups } := by
  unfold applyFix
  rw [h]

/-- Folding `applyFix` over a list of findings appends exactly that list to
the trace. -/
theorem foldl_applyFix_trace (l : List Finding) :
    ∀ st : AutoFixerState, (l.foldl applyFix st).trace = st.trace ++ l := by
  induction l with
  | nil => intro st ; simp
  | cons a as ih =>
    intro st
    rw [List.foldl_cons, ih, applyFix_trace]
    simp

/-- `presentSuggestedFixes` attempts exactly the confirmed findings, in
order. -/
theorem presentSuggestedFixes_trace (confirm : Finding → Bool) (l : List Finding) :
    ∀ st : AutoFixerState,
      (presentSuggestedFixes confirm st l).trace = st.trace ++ l.filter confirm := by
  induction l with
  | nil => intro st ; simp [presentSuggestedFixes]
  | cons a as ih =>
    intro st
    by_cases h : confirm a = true
    · have step : presentSuggestedFixes confirm st (a :: as)
          = presentSuggestedFixes confirm (applyFix st a) as := by
        simp [presentSuggestedFixes, h]
      rw [step, ih, applyFix_trace, List.filter_cons_of_pos h]
      simp
    · have hb : confirm a = false := by
        cases hc : confirm a
        · rfl
        · exact absurd hc h
      have step : presentSuggestedFixes confirm st (a :: as)
          = presentSuggestedFixes confirm st as := by
        simp [presentSuggestedFixes, hb]
      rw [step, ih, List.filter_cons_of_neg]
      simp [hb]

/-- The trace of a whole `applyFixes` run: first every safe finding
(confidence at or above the hard-coded 0.9), then every confirmed suggested
finding (confidence strictly below 0.9). -/
theorem applyFixes_trace (confirm : Finding → Bool) (st : AutoFixerState) :
    (applyFixes confirm st).trace =
      st.trace ++ st.issues.filter (fun i => decide (conf090 ≤ i.confidence))
        ++ (st.issues.filter (fun i => decide (i.confidence < conf090))).filter confirm := by
  unfold applyFixes
  by_cases h : (st.issues.filter (fun i => decide (i.confidence < conf090))).length > 0
  · simp only [h, if_true]
    rw [presentSuggestedFixes_trace, foldl_applyFix_trace, List.append_assoc]
  · simp only [h, if_false]
    have hnil : st.issues.filter (fun i => decide (i.confidence < conf090)) = [] := by
      cases hc : st.issues.filter (fun i => decide (i.confidence < conf090))
      · rfl
      · rw [hc] at h ; exact absurd (Nat.succ_pos _) h
    rw [foldl_applyFix_trace, hnil]
    simp

/-- Folding the per-fixer dispatch over any fixer list only appends to the
issue list: the appended findings are those of the handling fixers, in
registration order. -/
theorem foldl_fixers_issues (md : MissingDetectors) (content filePath ft : String) :
    ∀ (l : List (String × Fixer)) (st : AutoFixerState),
      l.foldl (fun s e =>
          if fixerCanHandle md e.2 ft then
            { s with issues := s.issues ++ fixerAnalyze md e.2 content filePath }
          else s) st
        = { st with issues := st.issues ++
            ((l.filter (fun e => fixerCanHandle md e.2 ft)).map
              (fun e => fixerAnalyze md e.2 content filePath)).flatten } := by
  intro l
  induction l with
  | nil => intro st ; simp
  | cons a as ih =>
    intro st
    by_cases h : fixerCanHandle md a.2 ft = true
    · simp only [List.foldl_cons, List.filter_cons, h, if_true, ih]
      simp [List.append_assoc]
    · have hb : fixerCanHandle md a.2 ft = false := by
        cases hc : fixerCanHandle md a.2 ft
        · rfl
        · exact absurd hc h
      simp only [List.foldl_cons, List.filter_cons, hb, Bool.false_eq_true, if_false, ih]

/-- `analyzeFile` only appends that file's findings to the issue list;
every other field of the state is unchanged. -/
theorem analyzeFile_eq (md : MissingDetectors) (st : AutoFixerState) (filePath : String) :
    analyzeFile md st filePath
      = { st with issues := st.issues ++ fileIssues md st.fs filePath } := by
  unfold analyzeFile
  cases h : fsRead st.fs filePath with
  | none =>
    have hfi : fileIssues md st.fs filePath = [] := by
      unfold fileIssues ; rw [h]
    rw [hfi]
    simp
  | some content =>
    have hfi : fileIssues md st.fs filePath =
        ((registeredFixers.filter (fun e => fixerCanHandle md e.2 (detectFileType filePath))).map
          (fun e => fixerAnalyze md e.2 content filePath)).flatten := by
      unfold fileIssues ; rw [h]
    rw [hfi]
    exact foldl_fixers_issues md content filePath (detectFileType filePath) registeredFixers st

/-- `analyzeProject` only appends the project's findings to the issue list;
every other field of the state is unchanged. -/
theorem analyzeProject_eq (md : MissingDetectors) (files : List String) :
    ∀ st : AutoFixerState,
      analyzeProject md files st
        = { st with issues := st.issues ++ projectIssues md st.fs files } := by
  induction files with
  | nil => intro st ; simp [analyzeProject, projectIssues]
  | cons f fs ih =>
    intro st
    have step : analyzeProject md (f :: fs) st = analyzeProject md fs (analyzeFile md st f) := by
      simp [analyzeProject]
    rw [step, ih, analyzeFile_eq]
    simp [projectIssues, List.append_assoc]

/-- List-shape lemma behind the reprocessing claim: a run's attempt list over
the old issues is a sublist of the run's attempt list over the extended
issues. -/
theorem sublist_append_pattern {α : Type} (t a b c d : List α) :
    List.Sublist (t ++ a ++ b) (t ++ (a ++ c) ++ (b ++ d)) := by
  rw [List.append_assoc t a b, List.append_assoc t (a ++ c) (b ++ d)]
  exact List.Sublist.append (List.Sublist.refl t)
    (List.Sublist.append (List.sublist_append_left a c) (List.sublist_append_left b d))

/-! ### The claims -/

/-- C1: the partition in `applyFixes` uses `>=` semantics against its cutoff
(the hard-coded 0.9 of `issue.confidence >= 0.9`): every Finding with
confidence ≥ 0.9 — including exactly 0.9 — is attempted automatically,
independent of the confirmation oracle, and every Finding with confidence
< 0.9 is attempted exactly when the oracle confirms it. -/
theorem applyFixes_partition_ge (st : AutoFixerState) (confirm : Finding → Bool) :
    (applyFixes confirm st).trace =
        st.trace ++ st.issues.filter (fun i => decide ((0.9 : Rat) ≤ i.confidence))
          ++ (st.issues.filter (fun i => decide (i.confidence < (0.9 : Rat)))).filter confirm
      ∧ ∀ i, i ∈ st.issues → i.confidence = (0.9 : Rat) →
          i ∈ (applyFixes confirm st).trace := by
  constructor
  · simpa only [ofScientific_conf090] using applyFixes_trace confirm st
  · intro i hi hconf
    rw [ofScientific_conf090] at hconf
    rw [applyFixes_trace]
    have hmem : i ∈ st.issues.filter (fun j => decide (conf090 ≤ j.confidence)) := by
      rw [List.mem_filter]
      refine ⟨hi, ?_⟩
      rw [hconf]
      decide
    exact List.mem_append.2 (Or.inl (List.mem_append.2 (Or.inr hmem)))

/-- Witness for C1: a finding whose confidence is exactly 0.9 is attempted
even when the confirmation oracle declines everything. -/
theorem applyFixes_partition_ge_witness :
    finding090 ∈ (applyFixes (fun _ => false) state090).trace :=
  (applyFixes_partition_ge state090 (fun _ => false)).2 finding090 (by decide)
    (by rw [ofScientific_conf090] ; rfl)

/-- C2 (code bug): the partition in `applyFixes` is governed by the
hard-coded constant 0.9, not the configured `confidence_threshold`.  With the
documented configuration (threshold 0.8), a finding of confidence 0.85 — at
or above the configured threshold, so auto-applicable per the claim — is
never attempted when confirmation is declined: the run attempts nothing,
records nothing and leaves the file system unchanged. -/
theorem applyFixes_ignores_configured_threshold :
    state085.config.confidence_threshold = (0.8 : Rat)
      ∧ (0.8 : Rat) ≤ finding085.confidence
      ∧ (applyFixes (fun _ => false) state085).trace = []
      ∧ (applyFixes (fun _ => false) state085).appliedFixes = []
      ∧ (applyFixes (fun _ => false) state085).fs = state085.fs := by
  refine ⟨?_, ?_, by decide, by decide, by decide⟩
  · rw [ofScientific_conf080] ; rfl
  · rw [ofScientific_conf080] ; decide

/-- C3 (code bug): `findMissingKeys` is not idempotent and flags list
renders that already carry a key: the negative lookahead sits after the
greedy `([^>]+)`, so it never rejects.  An element with `key={item.id}`
yields a Finding, and re-running the detector on Scenario A's own fixed
output yields a Finding again. -/
theorem findMissingKeys_flags_keyed_render :
    (findMissingKeys keyedInputId ("src/App.jsx")).length = 1
      ∧ (findMissingKeys scenarioA ("src/App.jsx")).map
          (fun f => (applyTextualFix scenarioA f.fix).map
            (fun out => (findMissingKeys out ("src/App.jsx")).length)) = [some 1] :=
  ⟨by decide, by decide⟩

/-- C4: on `items.map(item => <div>{item.name}</div>)` the missing-key
detector emits exactly one Finding — category `react`, type `missing_key`,
confidence 0.95 — and applying its proposed fix yields
`items.map(item => <div key={index}>{item.name}</div>)` (the documented
index-based key). -/
theorem scenarioA_missing_key_finding :
    findMissingKeys scenarioA ("src/App.jsx") = [findingA]
      ∧ findingA.category = ("react")
      ∧ findingA.type = ("missing_key")
      ∧ findingA.confidence = (0.95 : Rat)
      ∧ applyTextualFix scenarioA findingA.fix = some keyedInputIdx := by
  refine ⟨by decide, rfl, rfl, ?_, by decide⟩
  rw [ofScientific_conf095] ; rfl

/-- C5: on `const { data } = await supabase.from('users').select('*')` the
missing-error-handling detector emits exactly one Finding — category
`supabase`, confidence 0.9 — and applying its proposed fix yields content
that destructures both `data` and `error` and contains the
`if (error) throw error` guard. -/
theorem scenarioB_error_handling_finding :
    findMissingErrorHandling scenarioB ("api.js") = [findingB]
      ∧ findingB.category = ("supabase")
      ∧ findingB.confidence = (0.9 : Rat)
      ∧ applyTextualFix scenarioB findingB.fix = some scenarioBFixed
      ∧ occursSub (("const \x7b data, error \x7d = await supabase").toList)
          scenarioBFixed.data = true
      ∧ occursSub (("if (error) throw error").toList) scenarioBFixed.data = true := by
  refine ⟨by decide, rfl, ?_, by decide, by decide, by decide⟩
  rw [ofScientific_conf090] ; rfl

/-- C6 counterexample: a safe finding whose original span does not occur in
its file fails, and the run records no failed `AppliedFix` for it — the
applied-fixes list holds only the subsequent successful fix, refuting
"records a failed AppliedFix" (the failure is only logged). -/
theorem failedFix_no_record_counterexample :
    attemptFix stateC6.fs findingBad = none
      ∧ (applyFixes (fun _ => true) stateC6).trace = [findingBad, findingGood]
      ∧ (applyFixes (fun _ => true) stateC6).appliedFixes
          = [{ issue := findingGood, success := true }] :=
  ⟨by decide, by decide, by decide⟩

/-- C6 (amended): a Finding whose fix application fails is only logged — no
`AppliedFix` record is added and no file changes — and processing continues:
the run attempts every safe finding and every confirmed suggested finding
exactly once, with no retries and no abort. -/
theorem failedFix_logged_run_continues :
    (∀ (st : AutoFixerState) (i : Finding), attemptFix st.fs i = none →
        applyFix st i = { st with
          trace := st.trace ++ [i]
          backups := if st.config.backup_before_fix
            then st.backups ++ [i.filePath] else st.backups })
      ∧ ∀ (st : AutoFixerState) (confirm : Finding → Bool),
          (applyFixes confirm st).trace =
            st.trace ++ st.issues.filter (fun i => decide ((0.9 : Rat) ≤ i.confidence))
              ++ (st.issues.filter (fun i => decide (i.confidence < (0.9 : Rat)))).filter confirm := by
  constructor
  · exact applyFix_of_attempt_none
  · intro st confirm
    simpa only [ofScientific_conf090] using applyFixes_trace confirm st

/-- Witness for C6 amended: the concrete failing fix changes nothing but the
attempt trace. -/
theorem failedFix_logged_run_continues_witness :
    applyFix stateC6 findingBad = { stateC6 with
        trace := stateC6.trace ++ [findingBad]
        backups := if stateC6.config.backup_before_fix
          then stateC6.backups ++ [findingBad.filePath] else stateC6.backups } :=
  failedFix_logged_run_continues.1 stateC6 findingBad (by decide)

/-- C7: both detectors' `analyze` functions are deterministic — identical
content and path arguments yield identical Finding lists (for any
instantiation of the sub-detectors not present in src). -/
theorem detectors_deterministic (md : MissingDetectors) (a b p q : String)
    (hc : a = b) (hp : p = q) :
    reactAnalyze md a p = reactAnalyze md b q
      ∧ supabaseAnalyze md a p = supabaseAnalyze md b q := by
  subst hc
  subst hp
  exact ⟨rfl, rfl⟩

/-- Witness for C7 at the Scenario A input. -/
theorem detectors_deterministic_witness :
    reactAnalyze mdNone scenarioA ("src/App.jsx")
        = reactAnalyze mdNone scenarioA ("src/App.jsx")
      ∧ supabaseAnalyze mdNone scenarioA ("src/App.jsx")
        = supabaseAnalyze mdNone scenarioA ("src/App.jsx") :=
  detectors_deterministic mdNone scenarioA scenarioA ("src/App.jsx") ("src/App.jsx") rfl rfl

/-- C8: a dry run produces the identical Report to a normal run on the same
state and leaves every file byte-for-byte unchanged. -/
theorem dryRun_same_report_files_unchanged (confirm : Finding → Bool) (st : AutoFixerState) :
    (dryRun confirm st).1 = (normalRun confirm st).1 ∧ (dryRun confirm st).2 = st.fs :=
  ⟨rfl, rfl⟩

/-- C9: every Finding the React detector produces carries category `react`
and every Finding the Supabase detector produces carries category
`supabase`; both categories are registered in `initializeFixers`, so the
`this.fixers.get(issue.category)` lookup in `applyFix` returns a defined
fixer. -/
theorem detector_category_registered (content filePath : String) (f : Finding) :
    (f ∈ findMissingKeys content filePath → fixersGet f.category = some Fixer.react)
      ∧ (f ∈ findMissingErrorHandling content filePath →
          fixersGet f.category = some Fixer.supabase) := by
  constructor
  · intro hf
    simp only [findMissingKeys] at hf
    obtain ⟨m, _, hm⟩ := List.mem_map.1 hf
    rw [← hm]
    rfl
  · intro hf
    simp only [findMissingErrorHandling] at hf
    obtain ⟨m, _, hm⟩ := List.mem_map.1 hf
    rw [← hm]
    rfl

/-- Witness for C9 at the two scenario findings. -/
theorem detector_category_registered_witness :
    fixersGet findingA.category = some Fixer.react
      ∧ fixersGet findingB.category = some Fixer.supabase :=
  ⟨(detector_category_registered scenarioA ("src/App.jsx") findingA).1 (by decide),
   (detector_category_registered scenarioB ("api.js") findingB).2 (by decide)⟩

/-- C10: the issue list is append-only — `analyzeProject` (via
`analyzeFile`) never clears it, a second project walk keeps the first walk's
findings as a prefix, and a subsequent `applyFixes` attempts every finding it
would have attempted after the first walk again (its attempt list is a
sublist of the doubled run's attempt list). -/
theorem analyze_append_only_reprocessed (md : MissingDetectors)
    (files1 files2 : List String) (st : AutoFixerState) (confirm : Finding → Bool) :
    (analyzeProject md files1 st).issues = st.issues ++ projectIssues md st.fs files1
      ∧ (analyzeProject md files2 (analyzeProject md files1 st)).issues
          = (analyzeProject md files1 st).issues ++ projectIssues md st.fs files2
      ∧ List.Sublist ((applyFixes confirm (analyzeProject md files1 st)).trace)
          ((applyFixes confirm (analyzeProject md files2 (analyzeProject md files1 st))).trace) := by
  have h1 := analyzeProject_eq md files1 st
  have h2 := analyzeProject_eq md files2 (analyzeProject md files1 st)
  have hfs : (analyzeProject md files1 st).fs = st.fs := by rw [h1]
  have hi2 : (analyzeProject md files2 (analyzeProject md files1 st)).issues
      = (analyzeProject md files1 st).issues ++ projectIssues md st.fs files2 := by
    rw [h2, hfs]
  have ht2 : (analyzeProject md files2 (analyzeProject md files1 st)).trace
      = (analyzeProject md files1 st).trace := by
    rw [h2]
  refine ⟨by rw [h1], hi2, ?_⟩
  rw [applyFixes_trace, applyFixes_trace, hi2, ht2]
  simp only [List.filter_append]
  exact sublist_append_pattern _ _ _ _ _

end AutoFixerAgent
